import Mathlib

/-
Verification of the url-shortener core (src/server.js, src/utils/shortcode.util.js,
schema from the database init script) via a shallow embedding.

Modelling conventions:
* `crypto.randomBytes(n)` is modelled by an explicit byte-list argument
  (`bytes.length = n`, every byte `< 256`).
* PostgreSQL is a list of rows; the `urls` table carries the schema defaults
  (`clicks = 0`, `created_at = now`, `last_accessed = NULL`), the UNIQUE
  constraint on `short_code` and the `VARCHAR(50)` length bound.
* Redis is an association list of entries with absolute expiry; `setEx`
  overwrites, `get` treats an expired entry as absent.
* Availability faults of the external stores are explicit booleans; a raised
  client error is an `Except.error`, caught by the handler's `try/catch`.
* Express handlers become pure functions from a request and a system state to
  a response and a new system state; the fire-and-forget click update is
  applied synchronously when it succeeds and dropped when it fails, matching
  the sequential (single in-flight request) semantics.
-/

/-! ## Short-code generator (src/utils/shortcode.util.js) -/

/-- Characters of the base64url alphabet, in encoding order. -/
def base64urlAlphabet : List Char :=
  "ABCDEFGHIJKLMNOPQRSTUVWXYZabcdefghijklmnopqrstuvwxyz0123456789-_".data

/-- Character the base64url encoding uses for a 6-bit group. -/
def b64Char (n : Nat) : Char := base64urlAlphabet.getD n 'A'

/-- Node `Buffer.toString('base64url')`: unpadded base64url encoding of a byte
sequence (3 bytes become 4 characters; a 1- or 2-byte tail becomes 2 or 3). -/
def base64urlEncode : List Nat → List Char
  | [] => []
  | [b1] => [b64Char (b1 / 4), b64Char (b1 % 4 * 16)]
  | [b1, b2] =>
    [b64Char (b1 / 4), b64Char (b1 % 4 * 16 + b2 / 16), b64Char (b2 % 16 * 4)]
  | b1 :: b2 :: b3 :: rest =>
    b64Char (b1 / 4) :: b64Char (b1 % 4 * 16 + b2 / 16) ::
      b64Char (b2 % 16 * 4 + b3 / 64) :: b64Char (b3 % 64) :: base64urlEncode rest

/-- Function `generateShortCode(length)`:
`crypto.randomBytes(length).toString('base64url').slice(0, length)`, with the
random bytes passed explicitly. -/
def generateShortCode (bytes : List Nat) (length : Nat) : String :=
  String.mk ((base64urlEncode bytes).take length)

/-- Call `generateShortCode()` with no argument: the length defaults to 6. -/
def generateShortCodeDefault (bytes : List Nat) : String :=
  generateShortCode bytes 6

/-! ## Data model (schema of the `urls` table) and external collaborators -/

/-- Row of the `urls` table (`id` omitted: it is never read by the handlers). -/
structure UrlRow where
  short_code : String
  original_url : String
  clicks : Nat
  created_at : Nat
  last_accessed : Option Nat
deriving Repr, DecidableEq

/-- Durable store: the `urls` table. -/
structure DB where
  rows : List UrlRow
deriving Repr, DecidableEq

/-- Redis entry with absolute expiry time. -/
structure CacheEntry where
  key : String
  value : String
  expiresAt : Nat
deriving Repr, DecidableEq

/-- Volatile cache. -/
structure Cache where
  entries : List CacheEntry
deriving Repr, DecidableEq

/-- Combined state of the two external stores. -/
structure SysState where
  db : DB
  cache : Cache
deriving Repr, DecidableEq

/-- Errors the store and cache clients can raise. -/
inductive JsError
  | dbUnavailable
  | uniqueViolation
  | valueTooLong
  | cacheUnavailable
deriving Repr, DecidableEq

/-- Availability of the external collaborators during one request. -/
structure Faults where
  dbUp : Bool
  cacheGetUp : Bool
  cacheSetUp : Bool
deriving Repr, DecidableEq

/-- All collaborators available: the fault-free environment. -/
def faultsOK : Faults := ⟨true, true, true⟩

/-- Query `SELECT ... FROM urls WHERE short_code = $1`. -/
def dbSelectByCode (f : Faults) (db : DB) (code : String) :
    Except JsError (List UrlRow) :=
  if f.dbUp then .ok (db.rows.filter (fun r => r.short_code == code))
  else .error .dbUnavailable

/-- Query `INSERT INTO urls (short_code, original_url) VALUES ($1, $2)
RETURNING id, short_code, original_url, created_at`, with the schema defaults
`clicks = 0`, `created_at = now`, `last_accessed = NULL`; rejects a duplicate
`short_code` (UNIQUE constraint) and a code longer than the `VARCHAR(50)`
column. -/
def dbInsert (f : Faults) (db : DB) (code url : String) (now : Nat) :
    Except JsError (UrlRow × DB) :=
  if f.dbUp then
    if code.length > 50 then .error .valueTooLong
    else if db.rows.any (fun r => r.short_code == code) then .error .uniqueViolation
    else
      .ok (⟨code, url, 0, now, none⟩, ⟨db.rows ++ [⟨code, url, 0, now, none⟩]⟩)
  else .error .dbUnavailable

/-- Row update performed by the click-count query on a matching row. -/
def bumpRow (code : String) (now : Nat) (r : UrlRow) : UrlRow :=
  if r.short_code == code then
    { r with clicks := r.clicks + 1, last_accessed := some now }
  else r

/-- Query `UPDATE urls SET clicks = clicks + 1, last_accessed = NOW() WHERE
short_code = $1`, issued fire-and-forget with `.catch(console.error)`: a store
failure leaves the rows unchanged and the error is swallowed. -/
def dbIncrementClicks (f : Faults) (db : DB) (code : String) (now : Nat) : DB :=
  if f.dbUp then ⟨db.rows.map (bumpRow code now)⟩ else db

/-- Key under which a code is cached: `url:${shortCode}`. -/
def cacheKey (shortCode : String) : String := "url:" ++ shortCode

/-- Call `redisClient.get(key)`: `none` when the key is absent or its TTL has
expired; raises when the cache is unreachable. -/
def cacheGet (f : Faults) (c : Cache) (key : String) (now : Nat) :
    Except JsError (Option String) :=
  if f.cacheGetUp then
    match c.entries.find? (fun e => e.key == key) with
    | some e => if now < e.expiresAt then .ok (some e.value) else .ok none
    | none => .ok none
  else .error .cacheUnavailable

/-- Call `redisClient.setEx(key, ttl, value)`: overwrites any entry for `key`,
setting expiry `now + ttl`; raises when the cache is unreachable. -/
def cacheSetEx (f : Faults) (c : Cache) (key : String) (ttl : Nat)
    (value : String) (now : Nat) : Except JsError Cache :=
  if f.cacheSetUp then
    .ok ⟨{ key := key, value := value, expiresAt := now + ttl } ::
          c.entries.filter (fun e => !(e.key == key))⟩
  else .error .cacheUnavailable

/-! ## URL validation performed by the create handler -/

/-- Leading character of a URL scheme (an ASCII letter). -/
def isSchemeStartChar (c : Char) : Bool := c.isAlpha

/-- Subsequent character of a URL scheme. -/
def isSchemeTailChar (c : Char) : Bool :=
  c.isAlpha || c.isDigit || c = '+' || c = '-' || c = '.'

/-- Consume scheme characters up to and including the terminating colon,
lower-casing them; `none` when no colon-terminated scheme is found. -/
def schemeTail : List Char → Option (List Char)
  | [] => none
  | c :: cs =>
    if c = ':' then some [':']
    else if isSchemeTailChar c then
      match schemeTail cs with
      | some rest => some (c.toLower :: rest)
      | none => none
    else none

/-- Scheme (protocol) extraction of the WHATWG `new URL(url)` constructor used
by the create handler: a URL string parses only when it begins with an
ASCII-letter-initial scheme terminated by `:`; the protocol is the lower-cased
scheme including the trailing colon. A `none` result models the constructor
throwing. -/
def urlProtocol (url : String) : Option String :=
  match url.data with
  | [] => none
  | c :: cs =>
    if isSchemeStartChar c then
      match schemeTail cs with
      | some rest => some (String.mk (c.toLower :: rest))
      | none => none
    else none

/-- JavaScript truthiness of an optional string value (`undefined`/`null` and
the empty string are falsy). -/
def truthyString : Option String → Option String
  | none => none
  | some v => if v = "" then none else some v

/-! ## HTTP responses of the two core handlers -/

/-- Responses of `POST /api/shorten`. -/
inductive ShortenResp
  | urlRequired
  | invalidUrlFormat
  | conflict
  | created (shortCode originalUrl : String) (createdAt : Nat)
  | serverError
deriving Repr, DecidableEq

/-- HTTP status of a `POST /api/shorten` response. -/
def ShortenResp.status : ShortenResp → Nat
  | .urlRequired => 400
  | .invalidUrlFormat => 400
  | .conflict => 409
  | .created _ _ _ => 201
  | .serverError => 500

/-- Responses of `GET /:shortCode`. -/
inductive ResolveResp
  | redirect (originalUrl : String)
  | notFound
  | serverError
deriving Repr, DecidableEq

/-- HTTP status of a `GET /:shortCode` response. -/
def ResolveResp.status : ResolveResp → Nat
  | .redirect _ => 302
  | .notFound => 404
  | .serverError => 500

/-! ## The `POST /api/shorten` handler (src/server.js) -/

/-- Tail of the create handler after validation and the custom-code pre-check:
insert into the database, then cache in Redis with a 24-hour expiry, then
respond 201 with the returned row; any raised error falls into the handler's
`catch`, which responds 500 (after the insert has already been committed, when
it is the cache write that raised). -/
def shortenInsertAndCache (f : Faults) (st : SysState) (url shortCode : String)
    (now : Nat) : ShortenResp × SysState :=
  match dbInsert f st.db shortCode url now with
  | .error _ => (.serverError, st)
  | .ok (row, db') =>
    match cacheSetEx f st.cache (cacheKey shortCode) 86400 url now with
    | .error _ => (.serverError, { st with db := db' })
    | .ok cache' =>
      (.created row.short_code row.original_url row.created_at,
        { db := db', cache := cache' })

/-- Middle of the create handler: `if (customCode)` pre-check (skipped for a
falsy custom code), then `const shortCode = customCode || generateShortCode()`.
The `generated` argument is the value `generateShortCode()` returns. -/
def shortenWithCode (f : Faults) (st : SysState) (url : String)
    (customCode? : Option String) (generated : String) (now : Nat) :
    ShortenResp × SysState :=
  match customCode? with
  | some custom =>
    if custom = "" then shortenInsertAndCache f st url generated now
    else
      match dbSelectByCode f st.db custom with
      | .error _ => (.serverError, st)
      | .ok rows =>
        if rows.length > 0 then (.conflict, st)
        else shortenInsertAndCache f st url custom now
  | none => shortenInsertAndCache f st url generated now

/-- Handler of `POST /api/shorten`: requires a truthy `url`, parses it with
`new URL` (a parse failure is caught and answered 500), rejects a protocol
other than `http:`/`https:` with 400, then runs the pre-check/insert/cache
sequence. -/
def handleShorten (f : Faults) (st : SysState) (url? customCode? : Option String)
    (generated : String) (now : Nat) : ShortenResp × SysState :=
  match url? with
  | none => (.urlRequired, st)
  | some url =>
    if url = "" then (.urlRequired, st)
    else
      match urlProtocol url with
      | none => (.serverError, st)
      | some proto =>
        if proto = "http:" ∨ proto = "https:" then
          shortenWithCode f st url customCode? generated now
        else (.invalidUrlFormat, st)

/-! ## The `GET /:shortCode` handler (src/server.js) -/

/-- Handler of `GET /:shortCode`: read the cache (a raised error is caught and
answered 500); on a falsy cached value query the store, answer 404 when no row
matches, otherwise repopulate the cache (a raised error is caught and answered
500); finally fire the click-count update without awaiting it and redirect. -/
def handleResolve (f : Faults) (st : SysState) (shortCode : String) (now : Nat) :
    ResolveResp × SysState :=
  match cacheGet f st.cache (cacheKey shortCode) now with
  | .error _ => (.serverError, st)
  | .ok cached =>
    match truthyString cached with
    | some originalUrl =>
      (.redirect originalUrl,
        { st with db := dbIncrementClicks f st.db shortCode now })
    | none =>
      match dbSelectByCode f st.db shortCode with
      | .error _ => (.serverError, st)
      | .ok rows =>
        match rows with
        | [] => (.notFound, st)
        | r :: _ =>
          match cacheSetEx f st.cache (cacheKey shortCode) 86400 r.original_url now with
          | .error _ => (.serverError, st)
          | .ok cache' =>
            (.redirect r.original_url,
              { db := dbIncrementClicks f st.db shortCode now, cache := cache' })

/-! ## Sequences of core operations -/

/-- One invocation of a core handler, with its environment. -/
inductive Op
  | create (f : Faults) (url? customCode? : Option String) (generated : String)
      (now : Nat)
  | resolve (f : Faults) (shortCode : String) (now : Nat)

/-- State reached after one operation. -/
def applyOp (st : SysState) : Op → SysState
  | .create f u c g n => (handleShorten f st u c g n).2
  | .resolve f c n => (handleResolve f st c n).2

/-- State reached after a sequence of operations. -/
def runOps (st : SysState) (ops : List Op) : SysState := ops.foldl applyOp st

/-- Specification predicate, following the spec's words (URL-safe character
set): every character of the code is drawn from the base64url alphabet. The
create handler itself never checks this. -/
def specUrlSafeCode (s : String) : Bool :=
  s.data.all (fun ch => base64urlAlphabet.contains ch)

/-- The code the create handler inserts, per `const shortCode = customCode ||
generateShortCode()`: a truthy (nonempty) custom code, otherwise the generated
one. -/
def chosenCode (customCode? : Option String) (generated : String) : String :=
  match customCode? with
  | some c => if c = "" then generated else c
  | none => generated

/-- Example stored state holding a single mapping, used by concrete instances. -/
def exampleState : SysState :=
  ⟨⟨[⟨"abc", "https://e.com", 0, 0, none⟩]⟩, ⟨[]⟩⟩

/-- Example resolve operation on the example state's code. -/
def exampleResolveOp : Op := .resolve faultsOK "abc" 3

/-! ## Generator lemmas -/

theorem base64urlAlphabet_length : base64urlAlphabet.length = 64 := by decide

theorem b64Char_mem (n : Nat) (h : n < 64) : b64Char n ∈ base64urlAlphabet := by
  have h' : n < base64urlAlphabet.length := by
    rw [base64urlAlphabet_length]; exact h
  rw [b64Char, List.getD_eq_getElem _ _ h']
  exact List.getElem_mem h'

theorem base64urlEncode_length_ge (bs : List Nat) :
    bs.length ≤ (base64urlEncode bs).length := by
  induction bs using base64urlEncode.induct with
  | case1 => simp [base64urlEncode]
  | case2 b1 => simp [base64urlEncode]
  | case3 b1 b2 => simp [base64urlEncode]
  | case4 b1 b2 b3 rest ih =>
    simp only [base64urlEncode, List.length_cons]
    omega

theorem base64urlEncode_mem_alphabet (bs : List Nat) (hb : ∀ b ∈ bs, b < 256) :
    ∀ c ∈ base64urlEncode bs, c ∈ base64urlAlphabet := by
  induction bs using base64urlEncode.induct with
  | case1 => intro c hc; simp [base64urlEncode] at hc
  | case2 b1 =>
    intro c hc
    have h1 : b1 < 256 := hb b1 (by simp)
    simp only [base64urlEncode, List.mem_cons, List.mem_singleton,
      List.not_mem_nil, or_false] at hc
    rcases hc with h | h <;> (subst h; exact b64Char_mem _ (by omega))
  | case3 b1 b2 =>
    intro c hc
    have h1 : b1 < 256 := hb b1 (by simp)
    have h2 : b2 < 256 := hb b2 (by simp)
    simp only [base64urlEncode, List.mem_cons, List.not_mem_nil, or_false] at hc
    rcases hc with h | h | h <;> (subst h; exact b64Char_mem _ (by omega))
  | case4 b1 b2 b3 rest ih =>
    intro c hc
    have h1 : b1 < 256 := hb b1 (by simp)
    have h2 : b2 < 256 := hb b2 (by simp)
    have h3 : b3 < 256 := hb b3 (by simp)
    have hrest : ∀ b ∈ rest, b < 256 := by
      intro b hbr; exact hb b (by simp [hbr])
    simp only [base64urlEncode, List.mem_cons] at hc
    rcases hc with h | h | h | h | h
    · subst h; exact b64Char_mem _ (by omega)
    · subst h; exact b64Char_mem _ (by omega)
    · subst h; exact b64Char_mem _ (by omega)
    · subst h; exact b64Char_mem _ (by omega)
    · exact ih hrest c h


/-! ## Lemmas about the store and cache operations -/

theorem dbInsert_fresh (f : Faults) (db : DB) (code url : String) (now : Nat)
    (hdb : f.dbUp = true) (h50 : code.length ≤ 50)
    (hfresh : db.rows.any (fun r => r.short_code == code) = false) :
    dbInsert f db code url now =
      .ok (⟨code, url, 0, now, none⟩, ⟨db.rows ++ [⟨code, url, 0, now, none⟩]⟩) := by
  have h50' : ¬ code.length > 50 := by omega
  unfold dbInsert
  rw [hdb]
  simp [h50', hfresh]

theorem dbInsert_dup (f : Faults) (db : DB) (code url : String) (now : Nat)
    (hdb : f.dbUp = true) (h50 : code.length ≤ 50)
    (hdup : db.rows.any (fun r => r.short_code == code) = true) :
    dbInsert f db code url now = .error .uniqueViolation := by
  have h50' : ¬ code.length > 50 := by omega
  unfold dbInsert
  rw [hdb]
  simp [h50', hdup]

theorem dbInsert_ok_inv (f : Faults) (db : DB) (code url : String) (now : Nat)
    (row : UrlRow) (db' : DB)
    (h : dbInsert f db code url now = .ok (row, db')) :
    f.dbUp = true ∧ code.length ≤ 50 ∧
      db.rows.any (fun r => r.short_code == code) = false ∧
      row = ⟨code, url, 0, now, none⟩ ∧ db'.rows = db.rows ++ [row] := by
  unfold dbInsert at h
  split at h
  · split at h
    · exact absurd h (by simp)
    · split at h
      · exact absurd h (by simp)
      · rename_i hdb h50 hdup
        simp only [Except.ok.injEq, Prod.mk.injEq] at h
        obtain ⟨hrow, hdb'⟩ := h
        refine ⟨hdb, by omega, by simpa using hdup, hrow.symm, ?_⟩
        rw [← hdb', hrow]
  · rename_i hdb
    exact absurd h (by simp)

theorem cacheSetEx_up (f : Faults) (c : Cache) (key : String) (ttl : Nat)
    (v : String) (now : Nat) (h : f.cacheSetUp = true) :
    cacheSetEx f c key ttl v now =
      .ok ⟨⟨key, v, now + ttl⟩ :: c.entries.filter (fun e => !(e.key == key))⟩ := by
  unfold cacheSetEx
  rw [h]
  simp

theorem cacheSetEx_down (f : Faults) (c : Cache) (key : String) (ttl : Nat)
    (v : String) (now : Nat) (h : f.cacheSetUp = false) :
    cacheSetEx f c key ttl v now = .error .cacheUnavailable := by
  unfold cacheSetEx
  rw [h]
  simp

theorem cacheSetEx_ok_inv (f : Faults) (c : Cache) (key : String) (ttl : Nat)
    (v : String) (now : Nat) (c' : Cache)
    (h : cacheSetEx f c key ttl v now = .ok c') :
    f.cacheSetUp = true ∧
      c' = ⟨⟨key, v, now + ttl⟩ :: c.entries.filter (fun e => !(e.key == key))⟩ := by
  unfold cacheSetEx at h
  split at h
  · rename_i hset
    simp only [Except.ok.injEq] at h
    exact ⟨hset, h.symm⟩
  · exact absurd h (by simp)

theorem cacheGet_down (f : Faults) (c : Cache) (key : String) (now : Nat)
    (h : f.cacheGetUp = false) :
    cacheGet f c key now = .error .cacheUnavailable := by
  unfold cacheGet
  rw [h]
  simp

/-! ## Lemmas about the create handler -/

theorem filter_eq_nil_of_any_eq_false (rows : List UrlRow) (code : String)
    (h : rows.any (fun r => r.short_code == code) = false) :
    rows.filter (fun r => r.short_code == code) = [] := by
  refine List.filter_eq_nil_iff.mpr ?_
  intro r hr
  exact (List.any_eq_false.mp h) r hr

theorem handleShorten_validUrl (f : Faults) (st : SysState) (url : String)
    (customCode? : Option String) (g : String) (now : Nat)
    (hne : url ≠ "")
    (hp : urlProtocol url = some "http:" ∨ urlProtocol url = some "https:") :
    handleShorten f st (some url) customCode? g now =
      shortenWithCode f st url customCode? g now := by
  simp only [handleShorten]
  rw [if_neg hne]
  rcases hp with hp | hp <;> rw [hp] <;> simp

theorem shortenWithCode_noCustom (f : Faults) (st : SysState) (url : String)
    (customCode? : Option String) (g : String) (now : Nat)
    (hcc : customCode? = none ∨ customCode? = some "") :
    shortenWithCode f st url customCode? g now =
      shortenInsertAndCache f st url g now := by
  rcases hcc with hcc | hcc <;> subst hcc <;> simp [shortenWithCode]

theorem shortenInsertAndCache_insert_error (f : Faults) (st : SysState)
    (url sc : String) (now : Nat) (e : JsError)
    (h : dbInsert f st.db sc url now = .error e) :
    shortenInsertAndCache f st url sc now = (.serverError, st) := by
  unfold shortenInsertAndCache
  rw [h]

theorem shortenInsertAndCache_cache_error (f : Faults) (st : SysState)
    (url sc : String) (now : Nat) (row : UrlRow) (db' : DB)
    (hi : dbInsert f st.db sc url now = .ok (row, db'))
    (hset : f.cacheSetUp = false) :
    shortenInsertAndCache f st url sc now = (.serverError, { st with db := db' }) := by
  unfold shortenInsertAndCache
  rw [hi, cacheSetEx_down f st.cache (cacheKey sc) 86400 url now hset]

theorem shortenInsertAndCache_ok (f : Faults) (st : SysState) (url sc : String)
    (now : Nat) (hdb : f.dbUp = true) (hset : f.cacheSetUp = true)
    (h50 : sc.length ≤ 50)
    (hfresh : st.db.rows.any (fun r => r.short_code == sc) = false) :
    shortenInsertAndCache f st url sc now =
      (.created sc url now,
        ⟨⟨st.db.rows ++ [⟨sc, url, 0, now, none⟩]⟩,
         ⟨⟨cacheKey sc, url, now + 86400⟩ ::
            st.cache.entries.filter (fun e => !(e.key == cacheKey sc))⟩⟩) := by
  unfold shortenInsertAndCache
  rw [dbInsert_fresh f st.db sc url now hdb h50 hfresh,
    cacheSetEx_up f st.cache (cacheKey sc) 86400 url now hset]

theorem shortenInsertAndCache_created_inv (f : Faults) (st : SysState)
    (url sc c o : String) (t : Nat) (now : Nat) (st' : SysState)
    (h : shortenInsertAndCache f st url sc now = (.created c o t, st')) :
    c = sc ∧ o = url ∧ t = now ∧ f.dbUp = true ∧ f.cacheSetUp = true ∧
      sc.length ≤ 50 ∧
      st.db.rows.any (fun r => r.short_code == sc) = false ∧
      st' = ⟨⟨st.db.rows ++ [⟨sc, url, 0, now, none⟩]⟩,
             ⟨⟨cacheKey sc, url, now + 86400⟩ ::
                st.cache.entries.filter (fun e => !(e.key == cacheKey sc))⟩⟩ := by
  unfold shortenInsertAndCache at h
  rcases hi : dbInsert f st.db sc url now with e | p
  · rw [hi] at h
    simp at h
  · rw [hi] at h
    obtain ⟨row, db'⟩ := p
    rcases hc : cacheSetEx f st.cache (cacheKey sc) 86400 url now with e2 | cache'
    · rw [hc] at h
      simp at h
    · rw [hc] at h
      simp only [Prod.mk.injEq, ShortenResp.created.injEq] at h
      obtain ⟨⟨hcsc, hourl, htn⟩, hst'⟩ := h
      obtain ⟨hdb, h50, hfresh, hrow, hdb'⟩ :=
        dbInsert_ok_inv f st.db sc url now row db' hi
      obtain ⟨hset, hcache'⟩ :=
        cacheSetEx_ok_inv f st.cache (cacheKey sc) 86400 url now cache' hc
      subst hrow
      refine ⟨hcsc.symm, hourl.symm, htn.symm, hdb, hset, h50, hfresh, ?_⟩
      rw [← hst', hcache']
      cases hdbeq : db' with
      | mk rowsd =>
        simp only [hdbeq] at hdb'
        simp only [SysState.mk.injEq, DB.mk.injEq, and_true]
        simpa using hdb'

theorem shortenWithCode_created_inv (f : Faults) (st : SysState) (url : String)
    (customCode? : Option String) (g : String) (now : Nat) (c o : String)
    (t : Nat) (st' : SysState)
    (h : shortenWithCode f st url customCode? g now = (.created c o t, st')) :
    ∃ sc, shortenInsertAndCache f st url sc now = (.created c o t, st') := by
  rcases customCode? with _ | custom
  · simp only [shortenWithCode] at h
    exact ⟨g, h⟩
  · simp only [shortenWithCode] at h
    by_cases hce : custom = ""
    · rw [if_pos hce] at h
      exact ⟨g, h⟩
    · rw [if_neg hce] at h
      rcases hs : dbSelectByCode f st.db custom with e | rows
      · rw [hs] at h
        simp at h
      · rw [hs] at h
        simp only [] at h
        by_cases hl : rows.length > 0
        · rw [if_pos hl] at h
          simp at h
        · rw [if_neg hl] at h
          exact ⟨custom, h⟩

theorem handleShorten_created_inv (f : Faults) (st : SysState)
    (url? customCode? : Option String) (g : String) (now : Nat) (c o : String)
    (t : Nat) (st' : SysState)
    (h : handleShorten f st url? customCode? g now = (.created c o t, st')) :
    ∃ url, url? = some url ∧ url ≠ "" ∧
      ∃ sc, shortenInsertAndCache f st url sc now = (.created c o t, st') := by
  rcases url? with _ | url
  · simp [handleShorten] at h
  · simp only [handleShorten] at h
    by_cases hne : url = ""
    · rw [if_pos hne] at h
      simp at h
    · rw [if_neg hne] at h
      rcases hp : urlProtocol url with _ | proto
      · rw [hp] at h
        simp at h
      · rw [hp] at h
        simp only [] at h
        by_cases hpp : proto = "http:" ∨ proto = "https:"
        · rw [if_pos hpp] at h
          exact ⟨url, rfl, hne,
            shortenWithCode_created_inv f st url customCode? g now c o t st' h⟩
        · rw [if_neg hpp] at h
          simp at h

theorem shortenInsertAndCache_ne_conflict (f : Faults) (st : SysState)
    (url sc : String) (now : Nat) :
    (shortenInsertAndCache f st url sc now).1 ≠ .conflict := by
  unfold shortenInsertAndCache
  rcases hi : dbInsert f st.db sc url now with e | p
  · simp
  · obtain ⟨row, db'⟩ := p
    rcases hc : cacheSetEx f st.cache (cacheKey sc) 86400 url now with e2 | cache' <;>
      simp

theorem handleShorten_conflict_inv (f : Faults) (st : SysState)
    (url? customCode? : Option String) (g : String) (now : Nat)
    (h : (handleShorten f st url? customCode? g now).1 = .conflict) :
    ∃ custom rows, customCode? = some custom ∧ custom ≠ "" ∧
      dbSelectByCode f st.db custom = .ok rows ∧ rows.length > 0 := by
  rcases url? with _ | url
  · simp [handleShorten] at h
  · simp only [handleShorten] at h
    by_cases hne : url = ""
    · rw [if_pos hne] at h
      simp at h
    · rw [if_neg hne] at h
      rcases hp : urlProtocol url with _ | proto
      · rw [hp] at h
        simp at h
      · rw [hp] at h
        simp only [] at h
        by_cases hpp : proto = "http:" ∨ proto = "https:"
        · rw [if_pos hpp] at h
          rcases customCode? with _ | custom
          · simp only [shortenWithCode] at h
            exact absurd h (shortenInsertAndCache_ne_conflict f st url g now)
          · simp only [shortenWithCode] at h
            by_cases hce : custom = ""
            · rw [if_pos hce] at h
              exact absurd h (shortenInsertAndCache_ne_conflict f st url g now)
            · rw [if_neg hce] at h
              rcases hs : dbSelectByCode f st.db custom with e | rows
              · rw [hs] at h
                simp at h
              · rw [hs] at h
                simp only [] at h
                by_cases hl : rows.length > 0
                · exact ⟨custom, rows, rfl, hce, hs, hl⟩
                · rw [if_neg hl] at h
                  exact absurd h (shortenInsertAndCache_ne_conflict f st url custom now)
        · rw [if_neg hpp] at h
          simp at h

/-! ## Lemmas about the resolve handler -/

theorem faultsOK_dbUp : faultsOK.dbUp = true := rfl

theorem faultsOK_cacheGetUp : faultsOK.cacheGetUp = true := rfl

theorem faultsOK_cacheSetUp : faultsOK.cacheSetUp = true := rfl

theorem truthyString_some (v : String) (h : v ≠ "") :
    truthyString (some v) = some v := by
  simp [truthyString, h]

theorem dbSelect_up (f : Faults) (db : DB) (code : String) (h : f.dbUp = true) :
    dbSelectByCode f db code = .ok (db.rows.filter (fun r => r.short_code == code)) := by
  unfold dbSelectByCode
  rw [h]
  simp

theorem cacheGet_up_cons_hit (f : Faults) (key v : String) (exp : Nat)
    (tail : List CacheEntry) (now : Nat) (hup : f.cacheGetUp = true) :
    cacheGet f ⟨⟨key, v, exp⟩ :: tail⟩ key now =
      if now < exp then .ok (some v) else .ok none := by
  unfold cacheGet
  rw [hup]
  rw [List.find?_cons_of_pos _ (by simp)]
  simp

theorem handleResolve_after_insert (st : SysState) (sc url : String)
    (now now' : Nat) (hne : url ≠ "")
    (hfresh : st.db.rows.any (fun r => r.short_code == sc) = false) :
    (handleResolve faultsOK
        ⟨⟨st.db.rows ++ [⟨sc, url, 0, now, none⟩]⟩,
         ⟨⟨cacheKey sc, url, now + 86400⟩ ::
            st.cache.entries.filter (fun e => !(e.key == cacheKey sc))⟩⟩ sc now').1 =
      .redirect url := by
  unfold handleResolve
  rw [cacheGet_up_cons_hit faultsOK (cacheKey sc) url (now + 86400) _ now'
    faultsOK_cacheGetUp]
  by_cases hexp : now' < now + 86400
  · rw [if_pos hexp]
    simp only [] 
    rw [truthyString_some url hne]
  · rw [if_neg hexp]
    simp only []
    have hsel : dbSelectByCode faultsOK ⟨st.db.rows ++ [⟨sc, url, 0, now, none⟩]⟩ sc =
        .ok [⟨sc, url, 0, now, none⟩] := by
      rw [dbSelect_up faultsOK _ sc faultsOK_dbUp]
      simp only [List.filter_append,
        filter_eq_nil_of_any_eq_false st.db.rows sc hfresh]
      simp [List.filter]
    simp only [truthyString]
    rw [hsel]
    simp only []
    rw [cacheSetEx_up faultsOK _ (cacheKey sc) 86400 url now' faultsOK_cacheSetUp]

/-! ## How each handler can change the stored rows -/

theorem dbIncrementClicks_cases (f : Faults) (db : DB) (code : String) (now : Nat) :
    (dbIncrementClicks f db code now).rows = db.rows ∨
      (dbIncrementClicks f db code now).rows = db.rows.map (bumpRow code now) := by
  unfold dbIncrementClicks
  by_cases h : f.dbUp = true
  · right
    rw [h]
    simp
  · left
    rw [Bool.not_eq_true] at h
    rw [h]
    simp

theorem shortenInsertAndCache_db_cases (f : Faults) (st : SysState)
    (url sc : String) (now : Nat) :
    ((shortenInsertAndCache f st url sc now).2).db.rows = st.db.rows ∨
      ∃ row, ((shortenInsertAndCache f st url sc now).2).db.rows =
        st.db.rows ++ [row] := by
  unfold shortenInsertAndCache
  split
  · simp
  · rename_i row db' hi
    obtain ⟨_, _, _, _, hdb'⟩ := dbInsert_ok_inv f st.db sc url now row db' hi
    split
    · exact Or.inr ⟨row, hdb'⟩
    · exact Or.inr ⟨row, hdb'⟩

theorem shortenWithCode_db_cases (f : Faults) (st : SysState) (url : String)
    (customCode? : Option String) (g : String) (now : Nat) :
    ((shortenWithCode f st url customCode? g now).2).db.rows = st.db.rows ∨
      ∃ row, ((shortenWithCode f st url customCode? g now).2).db.rows =
        st.db.rows ++ [row] := by
  unfold shortenWithCode
  split
  · split
    · exact shortenInsertAndCache_db_cases f st url g now
    · split
      · simp
      · split
        · simp
        · exact shortenInsertAndCache_db_cases f st url _ now
  · exact shortenInsertAndCache_db_cases f st url g now

theorem handleShorten_db_cases (f : Faults) (st : SysState)
    (url? customCode? : Option String) (g : String) (now : Nat) :
    ((handleShorten f st url? customCode? g now).2).db.rows = st.db.rows ∨
      ∃ row, ((handleShorten f st url? customCode? g now).2).db.rows =
        st.db.rows ++ [row] := by
  unfold handleShorten
  split
  · simp
  · split
    · simp
    · split
      · simp
      · split
        · exact shortenWithCode_db_cases f st _ customCode? g now
        · simp

theorem handleResolve_db_cases (f : Faults) (st : SysState) (sc : String)
    (n : Nat) :
    ((handleResolve f st sc n).2).db.rows = st.db.rows ∨
      ((handleResolve f st sc n).2).db.rows = st.db.rows.map (bumpRow sc n) := by
  unfold handleResolve
  split
  · simp
  · split
    · exact dbIncrementClicks_cases f st.db sc n
    · split
      · simp
      · split
        · simp
        · split
          · simp
          · exact dbIncrementClicks_cases f st.db sc n

theorem applyOp_row_step (st : SysState) (op : Op) (i : Nat)
    (h : i < st.db.rows.length) :
    ∃ h1 : i < (applyOp st op).db.rows.length,
      (applyOp st op).db.rows.get ⟨i, h1⟩ = st.db.rows.get ⟨i, h⟩ ∨
      ∃ n, (applyOp st op).db.rows.get ⟨i, h1⟩ =
        { st.db.rows.get ⟨i, h⟩ with
            clicks := (st.db.rows.get ⟨i, h⟩).clicks + 1,
            last_accessed := some n } := by
  have hcases : (applyOp st op).db.rows = st.db.rows ∨
      (∃ row, (applyOp st op).db.rows = st.db.rows ++ [row]) ∨
      (∃ code mnow, (applyOp st op).db.rows = st.db.rows.map (bumpRow code mnow)) := by
    rcases op with ⟨f, u, c, g, n⟩ | ⟨f, sc, n⟩
    · rcases handleShorten_db_cases f st u c g n with h1 | ⟨row, h1⟩
      · exact Or.inl h1
      · exact Or.inr (Or.inl ⟨row, h1⟩)
    · rcases handleResolve_db_cases f st sc n with h1 | h1
      · exact Or.inl h1
      · exact Or.inr (Or.inr ⟨sc, n, h1⟩)
  rcases hcases with h1 | ⟨row, h1⟩ | ⟨code, mnow, h1⟩
  · refine ⟨by rw [h1]; exact h, Or.inl ?_⟩
    simp only [List.get_eq_getElem]
    exact List.getElem_of_eq h1 (by rw [h1]; exact h)
  · refine ⟨by rw [h1]; simp [List.length_append]; omega, Or.inl ?_⟩
    simp only [List.get_eq_getElem]
    rw [List.getElem_of_eq h1]
    exact List.getElem_append_left h
  · refine ⟨by rw [h1]; simpa using h, ?_⟩
    simp only [List.get_eq_getElem]
    rw [List.getElem_of_eq h1, List.getElem_map]
    by_cases hb : (st.db.rows.get ⟨i, h⟩).short_code == code
    · right
      refine ⟨mnow, ?_⟩
      simp only [bumpRow, List.get_eq_getElem] at *
      rw [if_pos hb]
    · left
      simp only [bumpRow, List.get_eq_getElem] at *
      rw [if_neg hb]

theorem runOps_row_mono (ops : List Op) (st : SysState) (i : Nat)
    (h : i < st.db.rows.length) :
    ∃ h2 : i < (runOps st ops).db.rows.length,
      ((runOps st ops).db.rows.get ⟨i, h2⟩).short_code =
          (st.db.rows.get ⟨i, h⟩).short_code ∧
        ((runOps st ops).db.rows.get ⟨i, h2⟩).original_url =
          (st.db.rows.get ⟨i, h⟩).original_url ∧
        ((runOps st ops).db.rows.get ⟨i, h2⟩).created_at =
          (st.db.rows.get ⟨i, h⟩).created_at ∧
        (st.db.rows.get ⟨i, h⟩).clicks ≤
          ((runOps st ops).db.rows.get ⟨i, h2⟩).clicks := by
  induction ops generalizing st with
  | nil => exact ⟨h, rfl, rfl, rfl, le_refl _⟩
  | cons op rest ih =>
    obtain ⟨h1, hstep⟩ := applyOp_row_step st op i h
    obtain ⟨h2, hsc, hurl, hca, hcl⟩ := ih (applyOp st op) h1
    have hmid : ((applyOp st op).db.rows.get ⟨i, h1⟩).short_code =
          (st.db.rows.get ⟨i, h⟩).short_code ∧
        ((applyOp st op).db.rows.get ⟨i, h1⟩).original_url =
          (st.db.rows.get ⟨i, h⟩).original_url ∧
        ((applyOp st op).db.rows.get ⟨i, h1⟩).created_at =
          (st.db.rows.get ⟨i, h⟩).created_at ∧
        (st.db.rows.get ⟨i, h⟩).clicks ≤
          ((applyOp st op).db.rows.get ⟨i, h1⟩).clicks := by
      rcases hstep with heq | ⟨n, hbump⟩
      · rw [heq]
        exact ⟨rfl, rfl, rfl, le_refl _⟩
      · rw [hbump]
        exact ⟨rfl, rfl, rfl, Nat.le_succ _⟩
    exact ⟨h2, hsc.trans hmid.1, hurl.trans hmid.2.1, hca.trans hmid.2.2.1,
      le_trans hmid.2.2.2 hcl⟩

/-! ## Claim theorems -/

/-- C5: for every positive length, `generateShortCode(length)` returns a string
of exactly that length whose characters are all drawn from the base64url
alphabet (upper/lower letters, digits, `-`, `_`); with no argument the length
defaults to 6. -/
theorem generateShortCode_length_and_alphabet (n : Nat) (bytes : List Nat)
    (hn : 0 < n) (hlen : bytes.length = n) (hb : ∀ b ∈ bytes, b < 256) :
    (generateShortCode bytes n).length = n ∧
      (∀ c ∈ (generateShortCode bytes n).data, c ∈ base64urlAlphabet) ∧
      generateShortCodeDefault bytes = generateShortCode bytes 6 := by
  refine ⟨?_, ?_, rfl⟩
  · have hge : n ≤ (base64urlEncode bytes).length := by
      have := base64urlEncode_length_ge bytes
      omega
    show ((base64urlEncode bytes).take n).length = n
    rw [List.length_take]
    omega
  · intro c hc
    have hc' : c ∈ (base64urlEncode bytes).take n := hc
    exact base64urlEncode_mem_alphabet bytes hb c (List.mem_of_mem_take hc')

/-- Witness for C5 at length 6 and a concrete byte sequence. -/
theorem generateShortCode_length_and_alphabet_witness :
    (generateShortCode [0, 63, 255, 17, 99, 200] 6).length = 6 ∧
      (∀ c ∈ (generateShortCode [0, 63, 255, 17, 99, 200] 6).data,
        c ∈ base64urlAlphabet) ∧
      generateShortCodeDefault [0, 63, 255, 17, 99, 200] =
        generateShortCode [0, 63, 255, 17, 99, 200] 6 :=
  generateShortCode_length_and_alphabet 6 [0, 63, 255, 17, 99, 200]
    (by decide) (by decide) (by decide)

/-- C1: whenever Create (with or without a custom code) answers 201 with a
code, the originalUrl it echoes is the submitted url, and Resolve on that code
(at any later time) redirects to exactly that submitted url. -/
theorem create_then_resolve_roundtrip (st st' : SysState)
    (customCode? : Option String) (url g c o : String) (t now now' : Nat)
    (h : handleShorten faultsOK st (some url) customCode? g now =
      (.created c o t, st')) :
    o = url ∧ (handleResolve faultsOK st' c now').1 = .redirect url := by
  obtain ⟨u, hu, hune, sc, hsc⟩ :=
    handleShorten_created_inv faultsOK st (some url) customCode? g now c o t st' h
  have huu : u = url := by
    have h' : url = u := by injection hu
    exact h'.symm
  obtain ⟨hc, ho, ht, hdb, hset, h50, hfresh, hst'⟩ :=
    shortenInsertAndCache_created_inv faultsOK st u sc c o t now st' hsc
  refine ⟨ho.trans huu, ?_⟩
  rw [hst', hc, ← huu]
  exact handleResolve_after_insert st sc u now now' hune hfresh

/-- Witness for C1: a concrete create followed by a later resolve. -/
theorem create_then_resolve_roundtrip_witness :
    "https://example.com" = "https://example.com" ∧
      (handleResolve faultsOK
        ⟨⟨[⟨"abc123", "https://example.com", 0, 0, none⟩]⟩,
         ⟨[⟨"url:abc123", "https://example.com", 86400⟩]⟩⟩ "abc123" 7).1 =
        .redirect "https://example.com" :=
  create_then_resolve_roundtrip ⟨⟨[]⟩, ⟨[]⟩⟩
    ⟨⟨[⟨"abc123", "https://example.com", 0, 0, none⟩]⟩,
     ⟨[⟨"url:abc123", "https://example.com", 86400⟩]⟩⟩
    none "https://example.com" "abc123" "abc123" "https://example.com" 0 0 7
    (by decide)

/-- C6: resolving a code that is present in neither the cache nor the durable
store fails with 404 immediately, writes no cache entry for the code (no
negative caching) and leaves cache and store unchanged. -/
theorem resolve_missing_code_notFound (f : Faults) (st : SysState)
    (code : String) (now : Nat)
    (hget : cacheGet f st.cache (cacheKey code) now = .ok none)
    (hdb : f.dbUp = true)
    (hrows : st.db.rows.filter (fun r => r.short_code == code) = []) :
    handleResolve f st code now = (.notFound, st) := by
  unfold handleResolve
  rw [hget]
  simp only [truthyString]
  rw [dbSelect_up f st.db code hdb, hrows]

/-- Witness for C6 on the empty system state. -/
theorem resolve_missing_code_notFound_witness :
    handleResolve faultsOK ⟨⟨[]⟩, ⟨[]⟩⟩ "zzz" 0 = (.notFound, ⟨⟨[]⟩, ⟨[]⟩⟩) :=
  resolve_missing_code_notFound faultsOK ⟨⟨[]⟩, ⟨[]⟩⟩ "zzz" 0 rfl rfl rfl

/-- C7: two sequential Create calls with the same explicit custom code: the
first answers 201, the second answers 409 (`CodeConflict`) leaving the state
unchanged, and exactly one mapping for that code is stored afterwards. -/
theorem create_twice_same_custom_conflict (st : SysState)
    (url url2 custom g g2 : String) (now now2 : Nat)
    (hu1 : url ≠ "")
    (hp1 : urlProtocol url = some "http:" ∨ urlProtocol url = some "https:")
    (hu2 : url2 ≠ "")
    (hp2 : urlProtocol url2 = some "http:" ∨ urlProtocol url2 = some "https:")
    (hc : custom ≠ "") (h50 : custom.length ≤ 50)
    (hfresh : st.db.rows.any (fun r => r.short_code == custom) = false) :
    ∃ st1, handleShorten faultsOK st (some url) (some custom) g now =
        (.created custom url now, st1) ∧
      handleShorten faultsOK st1 (some url2) (some custom) g2 now2 =
        (.conflict, st1) ∧
      (st1.db.rows.filter (fun r => r.short_code == custom)).length = 1 := by
  have hfil : st.db.rows.filter (fun r => r.short_code == custom) = [] :=
    filter_eq_nil_of_any_eq_false st.db.rows custom hfresh
  refine ⟨⟨⟨st.db.rows ++ [⟨custom, url, 0, now, none⟩]⟩,
    ⟨⟨cacheKey custom, url, now + 86400⟩ ::
      st.cache.entries.filter (fun e => !(e.key == cacheKey custom))⟩⟩, ?_, ?_, ?_⟩
  · rw [handleShorten_validUrl faultsOK st url (some custom) g now hu1 hp1]
    simp only [shortenWithCode]
    rw [if_neg hc, dbSelect_up faultsOK st.db custom faultsOK_dbUp, hfil]
    simp only []
    rw [if_neg (by simp)]
    exact shortenInsertAndCache_ok faultsOK st url custom now faultsOK_dbUp
      faultsOK_cacheSetUp h50 hfresh
  · rw [handleShorten_validUrl faultsOK _ url2 (some custom) g2 now2 hu2 hp2]
    simp only [shortenWithCode]
    rw [if_neg hc, dbSelect_up faultsOK _ custom faultsOK_dbUp]
    simp only [List.filter_append, hfil]
    simp [List.filter]
  · simp only [List.filter_append, hfil]
    simp [List.filter]

/-- Witness for C7 on a concrete pair of create calls. -/
theorem create_twice_same_custom_conflict_witness :
    ∃ st1, handleShorten faultsOK ⟨⟨[]⟩, ⟨[]⟩⟩ (some "https://a.com")
        (some "github") "x" 0 = (.created "github" "https://a.com" 0, st1) ∧
      handleShorten faultsOK st1 (some "https://b.com") (some "github") "y" 1 =
        (.conflict, st1) ∧
      (st1.db.rows.filter (fun r => r.short_code == "github")).length = 1 :=
  create_twice_same_custom_conflict ⟨⟨[]⟩, ⟨[]⟩⟩ "https://a.com" "https://b.com"
    "github" "x" "y" 0 1 (by decide) (Or.inr (by decide)) (by decide)
    (Or.inr (by decide)) (by decide) (by decide) rfl

/-- C10: a supplied empty-string custom code is falsy, so Create treats it as
absent: the handler behaves identically to a call with no custom code (in
particular the prior-existence pre-check is skipped), and on the happy path it
inserts the freshly generated 6-character code instead of the empty string. -/
theorem empty_custom_code_treated_absent :
    (∀ (f : Faults) (st : SysState) (url? : Option String) (g : String) (now : Nat),
      handleShorten f st url? (some "") g now =
        handleShorten f st url? none g now) ∧
    (∀ (st : SysState) (url : String) (bytes : List Nat) (now : Nat),
      url ≠ "" →
      (urlProtocol url = some "http:" ∨ urlProtocol url = some "https:") →
      bytes.length = 6 → (∀ b ∈ bytes, b < 256) →
      st.db.rows.any
        (fun r => r.short_code == generateShortCodeDefault bytes) = false →
      (handleShorten faultsOK st (some url) (some "")
          (generateShortCodeDefault bytes) now).1 =
        .created (generateShortCodeDefault bytes) url now ∧
      (generateShortCodeDefault bytes).length = 6) := by
  constructor
  · intro f st url? g now
    rcases url? with _ | url
    · rfl
    · simp [handleShorten, shortenWithCode]
  · intro st url bytes now hne hp hblen hbv hfresh
    have hge : 6 ≤ (base64urlEncode bytes).length := by
      have := base64urlEncode_length_ge bytes
      omega
    have hlen6 : (generateShortCodeDefault bytes).length = 6 := by
      show ((base64urlEncode bytes).take 6).length = 6
      rw [List.length_take]
      omega
    have h50 : (generateShortCodeDefault bytes).length ≤ 50 := by omega
    refine ⟨?_, hlen6⟩
    rw [handleShorten_validUrl faultsOK st url (some "")
        (generateShortCodeDefault bytes) now hne hp,
      shortenWithCode_noCustom faultsOK st url (some "")
        (generateShortCodeDefault bytes) now (Or.inr rfl),
      shortenInsertAndCache_ok faultsOK st url (generateShortCodeDefault bytes)
        now faultsOK_dbUp faultsOK_cacheSetUp h50 hfresh]

/-- Witness for C10 on the empty system state. -/
theorem empty_custom_code_treated_absent_witness :
    handleShorten faultsOK ⟨⟨[]⟩, ⟨[]⟩⟩ (some "https://example.com") (some "")
        "g" 0 =
      handleShorten faultsOK ⟨⟨[]⟩, ⟨[]⟩⟩ (some "https://example.com") none
        "g" 0 ∧
    ((handleShorten faultsOK ⟨⟨[]⟩, ⟨[]⟩⟩ (some "https://example.com") (some "")
        (generateShortCodeDefault [0, 63, 255, 17, 99, 200]) 0).1 =
      .created (generateShortCodeDefault [0, 63, 255, 17, 99, 200])
        "https://example.com" 0 ∧
      (generateShortCodeDefault [0, 63, 255, 17, 99, 200]).length = 6) :=
  ⟨empty_custom_code_treated_absent.1 faultsOK ⟨⟨[]⟩, ⟨[]⟩⟩
      (some "https://example.com") "g" 0,
   empty_custom_code_treated_absent.2 ⟨⟨[]⟩, ⟨[]⟩⟩ "https://example.com"
      [0, 63, 255, 17, 99, 200] 0 (by decide) (Or.inr (by decide)) (by decide)
      (by decide) rfl⟩

/-- C9: under any sequence of Create/Resolve operations an existing mapping
never changes its `short_code`, `original_url` or `created_at`, and its
`clicks` counter is monotonically non-decreasing; a single operation either
leaves an existing row untouched or exactly increments `clicks` by one while
setting `last_accessed`, changing nothing else. -/
theorem mapping_immutable_clicks_monotone (st : SysState) (op : Op)
    (ops : List Op) (i : Nat) (h : i < st.db.rows.length) :
    (∃ h1 : i < (applyOp st op).db.rows.length,
      (applyOp st op).db.rows.get ⟨i, h1⟩ = st.db.rows.get ⟨i, h⟩ ∨
      ∃ n, (applyOp st op).db.rows.get ⟨i, h1⟩ =
        { st.db.rows.get ⟨i, h⟩ with
            clicks := (st.db.rows.get ⟨i, h⟩).clicks + 1,
            last_accessed := some n }) ∧
    (∃ h2 : i < (runOps st ops).db.rows.length,
      ((runOps st ops).db.rows.get ⟨i, h2⟩).short_code =
          (st.db.rows.get ⟨i, h⟩).short_code ∧
        ((runOps st ops).db.rows.get ⟨i, h2⟩).original_url =
          (st.db.rows.get ⟨i, h⟩).original_url ∧
        ((runOps st ops).db.rows.get ⟨i, h2⟩).created_at =
          (st.db.rows.get ⟨i, h⟩).created_at ∧
        (st.db.rows.get ⟨i, h⟩).clicks ≤
          ((runOps st ops).db.rows.get ⟨i, h2⟩).clicks) :=
  ⟨applyOp_row_step st op i h, runOps_row_mono ops st i h⟩

/-- Witness for C9 on the example state and a concrete resolve operation. -/
theorem mapping_immutable_clicks_monotone_witness :
    (∃ h1 : 0 < (applyOp exampleState exampleResolveOp).db.rows.length,
      (applyOp exampleState exampleResolveOp).db.rows.get ⟨0, h1⟩ =
          exampleState.db.rows.get ⟨0, by decide⟩ ∨
      ∃ n, (applyOp exampleState exampleResolveOp).db.rows.get ⟨0, h1⟩ =
        { exampleState.db.rows.get ⟨0, by decide⟩ with
            clicks := (exampleState.db.rows.get ⟨0, by decide⟩).clicks + 1,
            last_accessed := some n }) ∧
    (∃ h2 : 0 < (runOps exampleState [exampleResolveOp]).db.rows.length,
      ((runOps exampleState [exampleResolveOp]).db.rows.get ⟨0, h2⟩).short_code =
          (exampleState.db.rows.get ⟨0, by decide⟩).short_code ∧
        ((runOps exampleState [exampleResolveOp]).db.rows.get
            ⟨0, h2⟩).original_url =
          (exampleState.db.rows.get ⟨0, by decide⟩).original_url ∧
        ((runOps exampleState [exampleResolveOp]).db.rows.get
            ⟨0, h2⟩).created_at =
          (exampleState.db.rows.get ⟨0, by decide⟩).created_at ∧
        (exampleState.db.rows.get ⟨0, by decide⟩).clicks ≤
          ((runOps exampleState [exampleResolveOp]).db.rows.get
            ⟨0, h2⟩).clicks) :=
  mapping_immutable_clicks_monotone exampleState exampleResolveOp
    [exampleResolveOp] 0 (by decide)

/-- C2 counterexample: with `"abc123"` already persisted and no custom code
supplied, a Create whose generated code is `"abc123"` has its insert rejected
by the store's uniqueness constraint, yet answers the generic 500 server
error — not the 409 conflict status the claim requires. -/
theorem insert_unique_violation_counterexample :
    dbInsert faultsOK ⟨[⟨"abc123", "https://old.example", 0, 0, none⟩]⟩
        "abc123" "https://example.com" 5 = .error .uniqueViolation ∧
    handleShorten faultsOK
        ⟨⟨[⟨"abc123", "https://old.example", 0, 0, none⟩]⟩, ⟨[]⟩⟩
        (some "https://example.com") none "abc123" 5 =
      (.serverError,
        ⟨⟨[⟨"abc123", "https://old.example", 0, 0, none⟩]⟩, ⟨[]⟩⟩) ∧
    ShortenResp.serverError.status = 500 ∧
    ShortenResp.serverError ≠ ShortenResp.conflict :=
  ⟨rfl, rfl, rfl, by decide⟩

/-- C2 amended: when the custom-code pre-check is skipped (no truthy custom
code supplied) and the generated code already exists in the store, the insert
is rejected by the uniqueness constraint and Create answers the generic 500
server error; the 409 conflict response arises only from the custom-code
prior-existence pre-check. -/
theorem insert_unique_violation_server_error (st : SysState) (url g : String)
    (customCode? : Option String) (now : Nat)
    (hcc : customCode? = none ∨ customCode? = some "")
    (hne : url ≠ "")
    (hp : urlProtocol url = some "http:" ∨ urlProtocol url = some "https:")
    (h50 : g.length ≤ 50)
    (hdup : st.db.rows.any (fun r => r.short_code == g) = true) :
    handleShorten faultsOK st (some url) customCode? g now = (.serverError, st) ∧
    dbInsert faultsOK st.db g url now = .error .uniqueViolation ∧
    (∀ (f' : Faults) (st' : SysState) (u' cc' : Option String) (g' : String)
        (now' : Nat),
      (handleShorten f' st' u' cc' g' now').1 = .conflict →
      ∃ custom rows, cc' = some custom ∧ custom ≠ "" ∧
        dbSelectByCode f' st'.db custom = .ok rows ∧ rows.length > 0) := by
  have hins : dbInsert faultsOK st.db g url now = .error .uniqueViolation :=
    dbInsert_dup faultsOK st.db g url now faultsOK_dbUp h50 hdup
  refine ⟨?_, hins, ?_⟩
  · rw [handleShorten_validUrl faultsOK st url customCode? g now hne hp,
      shortenWithCode_noCustom faultsOK st url customCode? g now hcc]
    exact shortenInsertAndCache_insert_error faultsOK st url g now _ hins
  · intro f' st' u' cc' g' now' hconf
    exact handleShorten_conflict_inv f' st' u' cc' g' now' hconf

/-- Witness for the amended C2 at a concrete collision. -/
theorem insert_unique_violation_server_error_witness :
    handleShorten faultsOK
        ⟨⟨[⟨"abc123", "https://old.example", 0, 0, none⟩]⟩, ⟨[]⟩⟩
        (some "https://example.com") none "abc123" 5 =
      (.serverError,
        ⟨⟨[⟨"abc123", "https://old.example", 0, 0, none⟩]⟩, ⟨[]⟩⟩) ∧
    dbInsert faultsOK ⟨[⟨"abc123", "https://old.example", 0, 0, none⟩]⟩
        "abc123" "https://example.com" 5 = .error .uniqueViolation :=
  ⟨(insert_unique_violation_server_error
      ⟨⟨[⟨"abc123", "https://old.example", 0, 0, none⟩]⟩, ⟨[]⟩⟩
      "https://example.com" "abc123" none 5 (Or.inl rfl) (by decide)
      (Or.inr (by decide)) (by decide) rfl).1,
   (insert_unique_violation_server_error
      ⟨⟨[⟨"abc123", "https://old.example", 0, 0, none⟩]⟩, ⟨[]⟩⟩
      "https://example.com" "abc123" none 5 (Or.inl rfl) (by decide)
      (Or.inr (by decide)) (by decide) rfl).2.1⟩

/-- C3 counterexample: with the store up and the cache write raising, a Create
on the empty state persists the row yet answers the generic 500 server error:
the cache-write failure fails the overall call instead of being swallowed. -/
theorem cache_write_failure_counterexample :
    handleShorten ⟨true, true, false⟩ ⟨⟨[]⟩, ⟨[]⟩⟩ (some "https://example.com")
        none "abc123" 0 =
      (.serverError,
        ⟨⟨[⟨"abc123", "https://example.com", 0, 0, none⟩]⟩, ⟨[]⟩⟩) ∧
    ShortenResp.serverError.status = 500 ∧
    ShortenResp.serverError ≠
      ShortenResp.created "abc123" "https://example.com" 0 :=
  ⟨rfl, rfl, by decide⟩

/-- C3 amended: for every Create call in which the durable-store insert
succeeds — with the code the handler chose, custom or generated — a raising
best-effort cache write makes the handler's catch-all answer the generic 500
server error (the cache-write failure DOES fail the overall Create call),
although the mapping has already been persisted in the durable store. -/
theorem cache_write_failure_fails_create (f : Faults) (st : SysState)
    (url g : String) (customCode? : Option String) (now : Nat) (row : UrlRow)
    (db' : DB)
    (hne : url ≠ "")
    (hp : urlProtocol url = some "http:" ∨ urlProtocol url = some "https:")
    (hset : f.cacheSetUp = false)
    (hins : dbInsert f st.db (chosenCode customCode? g) url now =
      .ok (row, db')) :
    handleShorten f st (some url) customCode? g now =
      (.serverError, { st with db := db' }) ∧
    db'.rows = st.db.rows ++ [row] := by
  obtain ⟨hdb, _, hfresh, _, hdb'⟩ :=
    dbInsert_ok_inv f st.db (chosenCode customCode? g) url now row db' hins
  refine ⟨?_, hdb'⟩
  rw [handleShorten_validUrl f st url customCode? g now hne hp]
  rcases customCode? with _ | c
  · simp only [chosenCode] at hins
    simp only [shortenWithCode]
    exact shortenInsertAndCache_cache_error f st url g now row db' hins hset
  · by_cases hce : c = ""
    · subst hce
      simp only [chosenCode, if_pos] at hins
      simp only [shortenWithCode, if_true]
      exact shortenInsertAndCache_cache_error f st url g now row db' hins hset
    · have hcc : chosenCode (some c) g = c := by
        simp [chosenCode, hce]
      rw [hcc] at hfresh hins
      simp only [shortenWithCode]
      rw [if_neg hce, dbSelect_up f st.db c hdb,
        filter_eq_nil_of_any_eq_false st.db.rows c hfresh]
      simp only []
      rw [if_neg (by simp)]
      exact shortenInsertAndCache_cache_error f st url c now row db' hins hset

/-- Witness for the amended C3, exercising the truthy-custom-code path. -/
theorem cache_write_failure_fails_create_witness :
    handleShorten ⟨true, true, false⟩ ⟨⟨[]⟩, ⟨[]⟩⟩ (some "https://example.com")
        (some "github") "x" 0 =
      (.serverError,
        { db := ⟨[⟨"github", "https://example.com", 0, 0, none⟩]⟩,
          cache := (⟨[]⟩ : Cache) }) ∧
    (⟨[⟨"github", "https://example.com", 0, 0, none⟩]⟩ : DB).rows =
      ([] : List UrlRow) ++ [⟨"github", "https://example.com", 0, 0, none⟩] :=
  cache_write_failure_fails_create ⟨true, true, false⟩ ⟨⟨[]⟩, ⟨[]⟩⟩
    "https://example.com" "x" (some "github") 0
    ⟨"github", "https://example.com", 0, 0, none⟩
    ⟨[⟨"github", "https://example.com", 0, 0, none⟩]⟩
    (by decide) (Or.inr (by decide)) rfl rfl

/-- C4 counterexample: with the code persisted in the store, Resolve answers
the generic 500 server error both when the cache read raises and when the
repopulating cache write raises on a miss — it does not degrade to the store
and redirect. -/
theorem cache_unavailable_resolve_counterexample :
    handleResolve ⟨true, false, false⟩ exampleState "abc" 0 =
      (.serverError, exampleState) ∧
    handleResolve ⟨true, true, false⟩ exampleState "abc" 0 =
      (.serverError, exampleState) ∧
    ResolveResp.serverError ≠ ResolveResp.redirect "https://e.com" :=
  ⟨rfl, rfl, by decide⟩

/-- C4 amended: cache unavailability IS fatal to Resolve: a raising cache read
always yields the 500 server error, and on a cache miss with the row present
in the store a raising repopulating cache write also yields the 500 server
error instead of the redirect. -/
theorem cache_failure_fatal_to_resolve :
    (∀ (d s : Bool) (st : SysState) (code : String) (now : Nat),
      handleResolve ⟨d, false, s⟩ st code now = (.serverError, st)) ∧
    (∀ (d : Bool) (st : SysState) (code : String) (now : Nat) (r : UrlRow)
        (rest : List UrlRow),
      cacheGet ⟨d, true, false⟩ st.cache (cacheKey code) now = .ok none →
      st.db.rows.filter (fun x => x.short_code == code) = r :: rest →
      d = true →
      handleResolve ⟨d, true, false⟩ st code now = (.serverError, st)) := by
  constructor
  · intro d s st code now
    unfold handleResolve
    rw [cacheGet_down ⟨d, false, s⟩ st.cache (cacheKey code) now rfl]
  · intro d st code now r rest hget hfil hd
    unfold handleResolve
    rw [hget]
    simp only [truthyString]
    rw [dbSelect_up ⟨d, true, false⟩ st.db code hd, hfil]
    simp only []
    rw [cacheSetEx_down ⟨d, true, false⟩ st.cache (cacheKey code) 86400
      r.original_url now rfl]

/-- Witness for the amended C4 on the example state. -/
theorem cache_failure_fatal_to_resolve_witness :
    handleResolve ⟨true, false, true⟩ exampleState "abc" 0 =
      (.serverError, exampleState) ∧
    handleResolve ⟨true, true, false⟩ exampleState "abc" 0 =
      (.serverError, exampleState) :=
  ⟨cache_failure_fatal_to_resolve.1 true true exampleState "abc" 0,
   cache_failure_fatal_to_resolve.2 true exampleState "abc" 0
     ⟨"abc", "https://e.com", 0, 0, none⟩ [] rfl rfl rfl⟩

/-- C8 counterexample: the custom code `"bad code!"` contains a space and `!`,
characters outside the URL-safe set, yet Create performs no such validation:
the call answers 201 and persists the malformed code, instead of rejecting it
as invalid input before insertion. -/
theorem custom_code_malformed_counterexample :
    specUrlSafeCode "bad code!" = false ∧
    (handleShorten faultsOK ⟨⟨[]⟩, ⟨[]⟩⟩ (some "https://example.com")
        (some "bad code!") "g12345" 0).1 =
      .created "bad code!" "https://example.com" 0 ∧
    ((handleShorten faultsOK ⟨⟨[]⟩, ⟨[]⟩⟩ (some "https://example.com")
        (some "bad code!") "g12345" 0).1).status = 201 :=
  ⟨by decide, by decide, by decide⟩

/-- C8 amended: the core performs no character-set validation on custom codes:
any nonempty fresh custom code within the store's 50-character limit is
accepted and persisted as-is whatever its characters; only a code longer than
50 characters is rejected — by the store's `VARCHAR(50)` constraint at insert
time, surfaced as the generic 500 server error, not as an invalid-input
rejection before insertion. -/
theorem custom_code_not_validated (st : SysState) (url c g : String) (now : Nat)
    (hne : url ≠ "")
    (hp : urlProtocol url = some "http:" ∨ urlProtocol url = some "https:")
    (hc : c ≠ "")
    (hfresh : st.db.rows.any (fun r => r.short_code == c) = false) :
    (c.length ≤ 50 →
      (handleShorten faultsOK st (some url) (some c) g now).1 =
        .created c url now) ∧
    (c.length > 50 →
      handleShorten faultsOK st (some url) (some c) g now =
        (.serverError, st)) := by
  have hfil : st.db.rows.filter (fun r => r.short_code == c) = [] :=
    filter_eq_nil_of_any_eq_false st.db.rows c hfresh
  constructor
  · intro h50
    rw [handleShorten_validUrl faultsOK st url (some c) g now hne hp]
    simp only [shortenWithCode]
    rw [if_neg hc, dbSelect_up faultsOK st.db c faultsOK_dbUp, hfil]
    simp only []
    rw [if_neg (by simp)]
    rw [shortenInsertAndCache_ok faultsOK st url c now faultsOK_dbUp
      faultsOK_cacheSetUp h50 hfresh]
  · intro h50
    rw [handleShorten_validUrl faultsOK st url (some c) g now hne hp]
    simp only [shortenWithCode]
    rw [if_neg hc, dbSelect_up faultsOK st.db c faultsOK_dbUp, hfil]
    simp only []
    rw [if_neg (by simp)]
    have hins : dbInsert faultsOK st.db c url now = .error .valueTooLong := by
      unfold dbInsert
      rw [faultsOK_dbUp]
      simp [h50]
    exact shortenInsertAndCache_insert_error faultsOK st url c now _ hins

/-- Witness for the amended C8 with a malformed custom code. -/
theorem custom_code_not_validated_witness :
    (handleShorten faultsOK ⟨⟨[]⟩, ⟨[]⟩⟩ (some "https://example.com")
        (some "bad code!") "g12345" 0).1 =
      .created "bad code!" "https://example.com" 0 :=
  (custom_code_not_validated ⟨⟨[]⟩, ⟨[]⟩⟩ "https://example.com" "bad code!"
    "g12345" 0 (by decide) (Or.inr (by decide)) (by decide) rfl).1 (by decide)
